import Mathlib

/-!
# Verification of `feed_generator.py`

A shallow embedding, in Lean 4, of the CSV replay tool `src/feed_generator.py`:
it reads a historical CSV, validates it, and re-emits its rows into an output
CSV, pacing consecutive emissions by the difference of the `time` column
scaled by a speed factor.

Modelling conventions:
* Python floats are modelled as exact rationals (`ℚ`).  The float literal
  `1e-9` in the source is modelled as the rational `1 / 10 ^ 9`.  Non-finite
  floats (`inf`, `nan`) are outside this rational model, so the numeric
  parser below rejects the strings (`"inf"`, `"nan"`) that CPython's `float`
  would accept; no claim involves them.
* A CSV file is modelled at the record level: a file's parsed content is a
  `List (List String)` of records (a blank line parses to `[]`), abstracting
  the delimiter/quoting layer, which no claim touches.
* The filesystem is a partial map from path to parsed content; directory
  creation (`ensure_parent_dir`, which touches no file) is not modelled.
* Wall-clock sleeping is modelled as an explicit `Event.sleep` in the run's
  ordered event trace; `flush`/`fsync` are modelled as each written record
  being immediately part of the output file's content.
-/

namespace FeedGenerator

/-! ## `compute_sleep_s` -/

/-- Embedding of `compute_sleep_s` (feed_generator.py lines 79–83):

```python
def compute_sleep_s(prev_time, curr_time, speed):
    if prev_time is None or curr_time is None:
        return 0.0
    dt = max(0.0, curr_time - prev_time)
    return dt / max(1e-9, speed)
```
-/
def compute_sleep_s (prev_time curr_time : Option ℚ) (speed : ℚ) : ℚ :=
  match prev_time, curr_time with
  | some p, some c => max 0 (c - p) / max (1 / 10 ^ 9) speed
  | _, _ => 0

/-! ## Numeric parsing: the model of CPython `float(x)`

`safe_float` strips the string and calls `float(x)`, mapping a `ValueError`
to `None`.  The parser below implements the finite-decimal part of the
`float` grammar: optional sign, then `d+ | d+.d* | .d+ | d+.`, then an
optional exponent `(e|E) [sign] d+`.  The non-finite literals
(`inf`, `infinity`, `nan`) and digit-group underscores that CPython also
accepts are outside this exact-rational model and are rejected here; no
claim exercises them. -/

/-- Value of a run of decimal digits. -/
def digitsToNat (l : List Char) : ℕ :=
  l.foldl (fun a c => a * 10 + (c.toNat - 48)) 0

/-- `some n` exactly when `l` is a nonempty run of decimal digits. -/
def decDigits? (l : List Char) : Option ℕ :=
  if l ≠ [] ∧ l.all Char.isDigit then some (digitsToNat l) else none

/-- Split a character list at the first `'.'`, if any. -/
def splitDot : List Char → List Char × Option (List Char)
  | [] => ([], none)
  | c :: cs =>
    if c = '.' then ([], some cs)
    else
      let (a, b) := splitDot cs
      (c :: a, b)

/-- Split a character list at the first `'e'` or `'E'`, if any (the float
grammar's exponent marker is case-insensitive). -/
def splitE : List Char → List Char × Option (List Char)
  | [] => ([], none)
  | c :: cs =>
    if c = 'e' ∨ c = 'E' then ([], some cs)
    else
      let (a, b) := splitE cs
      (c :: a, b)

/-- Unsigned decimal mantissa `d+ | d+.d* | .d+ | d+.` as an exact
rational. -/
def mantissa? (l : List Char) : Option ℚ :=
  match splitDot l with
  | (ip, none) => (decDigits? ip).map (fun n => (n : ℚ))
  | (ip, some fp) =>
    if ip.all Char.isDigit ∧ fp.all Char.isDigit ∧ (ip ≠ [] ∨ fp ≠ []) then
      some ((digitsToNat ip : ℚ) + (digitsToNat fp : ℚ) / 10 ^ fp.length)
    else none

/-- Optionally signed decimal integer (the exponent of a float literal). -/
def signedInt? : List Char → Option ℤ
  | '-' :: rest => (decDigits? rest).map (fun n => -(n : ℤ))
  | '+' :: rest => (decDigits? rest).map (fun n => (n : ℤ))
  | l => (decDigits? l).map (fun n => (n : ℤ))

/-- Model of CPython `float` on finite decimal literals (as a character
list), an exact rational; `none` models `float` raising `ValueError`. -/
def pyFloat? (l : List Char) : Option ℚ :=
  let (sign, body) : ℚ × List Char :=
    match l with
    | '-' :: rest => (-1, rest)
    | '+' :: rest => (1, rest)
    | _ => (1, l)
  let (mant, expPart) := splitE body
  match mantissa? mant, expPart with
  | some m, none => some (sign * m)
  | some m, some e =>
    (signedInt? e).map (fun k =>
      if 0 ≤ k then sign * m * 10 ^ k.toNat else sign * m / 10 ^ (-k).toNat)
  | none, _ => none

/-- Python `str.strip()`: drop whitespace at both ends (modelled on the
string's character list, since `String.trim` does not reduce in the
kernel). -/
def pyStrip (l : List Char) : List Char :=
  ((l.dropWhile Char.isWhitespace).reverse.dropWhile Char.isWhitespace).reverse

/-- Embedding of `safe_float` (feed_generator.py lines 67–76):

```python
def safe_float(x):
    if x is None:
        return None
    x = x.strip()
    if not x:
        return None
    try:
        return float(x)
    except ValueError:
        return None
```
-/
def safe_float (x : Option String) : Option ℚ :=
  match x with
  | none => none
  | some s =>
    let l := pyStrip s.toList
    if l = [] then none
    else pyFloat? l

/-! ## Rows, datasets and CSV input -/

/-- A Python dict row as produced by `csv.DictReader`: an association list
from column name to optional cell value (a `none` value is the dict value
`None`, i.e. `DictReader`'s `restval` for a record shorter than the
header). -/
abbrev Row := List (String × Option String)

/-- Python `row.get(k)`: the value bound to `k`, `none` when the key is
absent.  A dict keeps, for each key, the value written last, so lookup takes
the last binding. -/
def rowGet (r : Row) (k : String) : Option String :=
  match r.reverse.find? (fun p => p.1 == k) with
  | some p => p.2
  | none => none

/-- Key list of a dict in Python's iteration order: first-insertion order,
one entry per distinct key. -/
def dedupKeysAux (seen : List String) : List String → List String
  | [] => []
  | k :: ks =>
    if k ∈ seen then dedupKeysAux seen ks
    else k :: dedupKeysAux (k :: seen) ks

/-- Python `list(row.keys())`. -/
def rowKeys (r : Row) : List String :=
  dedupKeysAux [] (r.map Prod.fst)

/-- The dict `csv.DictReader` builds for one record: `dict(zip(fieldnames,
row))`, with fieldnames beyond the record's length bound to
`restval = None`.  (A record strictly longer than the header additionally
binds the overflow to the non-string `restkey None`, outside this
string-keyed model; every claim about replay output quantifies over valid
datasets, whose records are exactly header-length.) -/
def dictOfRecord (fieldnames rcd : List String) : Row :=
  fieldnames.zip (rcd.map some) ++
    (fieldnames.drop rcd.length).map (fun k => (k, none))

/-- `csv.DictWriter`'s `_dict_to_list` with the default
`extrasaction='raise'`: a `ValueError` when the row has a key outside
`fieldnames` (uncaught in the replay loop), otherwise the record
`[rowdict.get(key, restval) for key in fieldnames]` with `restval=''`
(`csv.writer` also writes a stored `None` as the empty string). -/
def dict_to_list (fieldnames : List String) (r : Row) :
    Except String (List String) :=
  if (rowKeys r).all (fun k => fieldnames.contains k) then
    .ok (fieldnames.map (fun k => (rowGet r k).getD ""))
  else
    .error "dict contains fields not in fieldnames"

/-- Parsed content of a CSV file: one entry per line-record; a blank line
parses to `[]`. -/
abbrev Content := List (List String)

/-- Embedding of `read_all_rows` (lines 56–64), given the parsed content of
the input file:

```python
def read_all_rows(path):
    with path.open("r", newline="") as f:
        reader = csv.DictReader(f)
        if not reader.fieldnames:
            raise ValueError("Input CSV has no header.")
        rows = list(reader)
        if not rows:
            raise ValueError("Input CSV has no data rows.")
        return rows
```

`reader.fieldnames` is the first record (`None` on an empty file, `[]` when
the first line is blank; both falsy).  `list(reader)` yields one dict per
remaining record, skipping blank records.  The `ValueError`s become
`Except.error` carrying the exception's message. -/
def read_all_rows (content : Content) : Except String (List Row) :=
  match content with
  | [] => .error "Input CSV has no header."
  | fieldnames :: rest =>
    if fieldnames = [] then .error "Input CSV has no header."
    else
      let rows := (rest.filter (fun r => r ≠ [])).map (dictOfRecord fieldnames)
      if rows = [] then .error "Input CSV has no data rows."
      else .ok rows

/-- An input dataset at the record level: a header plus data records. -/
structure Dataset where
  header : List String
  records : Content

/-- The parsed file content serializing a dataset. -/
def Dataset.toContent (d : Dataset) : Content :=
  d.header :: d.records

/-- The spec's Dataset invariant (§3): nonempty duplicate-free header, at
least one data record, every record exactly header-length. -/
def Dataset.Valid (d : Dataset) : Prop :=
  d.header ≠ [] ∧ d.header.Nodup ∧ d.records ≠ [] ∧
    ∀ r ∈ d.records, r.length = d.header.length

instance (d : Dataset) : Decidable d.Valid := by
  unfold Dataset.Valid; infer_instance

/-! ## The run model -/

/-- One observable step of a run: a wall-clock sleep, or a record written
durably to the output file. -/
inductive Event where
  | sleep (d : ℚ)
  | writeHeader (rcd : List String)
  | writeRow (rcd : List String)
deriving DecidableEq

/-- The filesystem as `main` touches it: parsed content per path; `none`
means the file does not exist. -/
structure FS where
  files : String → Option Content

/-- Writing a file whole (opening with mode `"w"` truncates, so the
resulting content never depends on the previous one). -/
def FS.write (fs : FS) (path : String) (content : Content) : FS :=
  ⟨fun p => if p = path then some content else fs.files p⟩

/-- Parsed command-line arguments (`parse_args`, lines 29–49). -/
structure Args where
  input : String
  output : String
  speed : ℚ

/-- The replay loop of `main` (lines 128–141):

```python
prev_t = None
for row in rows:
    curr_t = safe_float(row.get("time"))
    sleep_s = compute_sleep_s(prev_t, curr_t, args.speed)
    if sleep_s > 0:
        time.sleep(sleep_s)
    writer.writerow(row)
    f_out.flush()
    os.fsync(f_out.fileno())
    prev_t = curr_t
```

Returns the event trace, the list of computed `sleep_s` values (one per
processed row), and whether the loop ran to completion (`False` when
`writer.writerow` raised an uncaught `ValueError`, which aborts the run
after the row's sleep but before its write). -/
def replayRows (fieldnames : List String) (speed : ℚ) :
    Option ℚ → List Row → List Event × List ℚ × Bool
  | _, [] => ([], [], true)
  | prev_t, row :: rest =>
    let curr_t := safe_float (rowGet row "time")
    let sleep_s := compute_sleep_s prev_t curr_t speed
    let pre : List Event := if sleep_s > 0 then [.sleep sleep_s] else []
    match dict_to_list fieldnames row with
    | .error _ => (pre, [sleep_s], false)
    | .ok rcd =>
      let (evs, ds, ok) := replayRows fieldnames speed curr_t rest
      (pre ++ .writeRow rcd :: evs, sleep_s :: ds, ok)

/-- The records a trace writes to the output file, in order. -/
def writtenRecords (evs : List Event) : Content :=
  evs.filterMap (fun e =>
    match e with
    | .writeHeader rcd => some rcd
    | .writeRow rcd => some rcd
    | .sleep _ => none)

/-- The start banner (lines 120–126); `ℚ`'s `toString` stands in for Python
float formatting, which no claim inspects. -/
def startMessage (args : Args) : String :=
  "Starting feed generator\n  input:  " ++ args.input ++
    "\n  output: " ++ args.output ++
    "\n  speed:  " ++ toString args.speed ++ "x\n"

/-- Outcome of one invocation: process exit code, the two output streams,
the ordered trace of sleeps and durable writes, the per-row computed
delays, and the filesystem after the run. -/
structure RunResult where
  exitCode : ℕ
  stdout : List String
  stderr : List String
  events : List Event
  delays : List ℚ
  fs : FS

/-- Embedding of `main` (lines 86–145), in source order:
1. `speed <= 0` → message on stderr, exit 2 (before touching any path);
2. input does not exist → message on stderr, exit 2;
3. `read_all_rows` raises → message on stderr, exit 2;
4. `fieldnames = list(rows[0].keys())`; `"time" not in fieldnames` →
   message on stderr, exit 2;
5. otherwise open the output with mode `"w"` (truncating), write the
   header, fsync, print the banner, run the replay loop, and exit 0 —
   or exit 1 with a traceback if `writerow` raised. -/
def main (args : Args) (fs : FS) : RunResult :=
  if args.speed ≤ 0 then
    ⟨2, [], ["ERROR: --speed must be > 0."], [], [], fs⟩
  else
    match fs.files args.input with
    | none => ⟨2, [], ["ERROR: input file not found: " ++ args.input], [], [], fs⟩
    | some content =>
      match read_all_rows content with
      | .error e =>
        ⟨2, [], ["ERROR: failed reading input CSV: " ++ e], [], [], fs⟩
      | .ok rows =>
        let fieldnames := rowKeys rows.headI
        if "time" ∉ fieldnames then
          ⟨2, [], ["ERROR: expected a 'time' column in the input CSV."],
            [], [], fs⟩
        else
          let (evs, ds, ok) := replayRows fieldnames args.speed none rows
          let events := Event.writeHeader fieldnames :: evs
          ⟨if ok then 0 else 1,
            startMessage args ::
              (if ok then ["Reached end of input. Exiting."] else []),
            if ok then []
              else ["ValueError: dict contains fields not in fieldnames"],
            events, ds, fs.write args.output (writtenRecords events)⟩

/-- The per-row `sleep_s` values of a completed replay: the closed form of
`replayRows`'s second component when no write fails. -/
def okDelays (speed : ℚ) : Option ℚ → List Row → List ℚ
  | _, [] => []
  | prev_t, row :: rest =>
    let curr_t := safe_float (rowGet row "time")
    compute_sleep_s prev_t curr_t speed :: okDelays speed curr_t rest

/-! ## Basic lemmas -/

theorem compute_sleep_s_none_left (c : Option ℚ) (s : ℚ) :
    compute_sleep_s none c s = 0 := by
  cases c <;> rfl

theorem compute_sleep_s_none_right (p : Option ℚ) (s : ℚ) :
    compute_sleep_s p none s = 0 := by
  cases p <;> rfl

example : safe_float (some "3") = some 3 := by
  simp +decide [safe_float, pyStrip, pyFloat?, splitE, splitDot, mantissa?,
    decDigits?, digitsToNat, signedInt?]

example : safe_float (some " 1.5 ") = some (3 / 2) := by
  simp +decide [safe_float, pyStrip, pyFloat?, splitE, splitDot, mantissa?,
    decDigits?, digitsToNat, signedInt?]
  norm_num

example : safe_float (some "-2e1") = some (-20) := by
  simp +decide [safe_float, pyStrip, pyFloat?, splitE, splitDot, mantissa?,
    decDigits?, digitsToNat, signedInt?]
  norm_num

example : safe_float (some "2.5e-1") = some (1 / 4) := by
  simp +decide [safe_float, pyStrip, pyFloat?, splitE, splitDot, mantissa?,
    decDigits?, digitsToNat, signedInt?]
  norm_num

example : safe_float (some "abc") = none := by
  simp +decide [safe_float, pyStrip, pyFloat?, splitE, splitDot, mantissa?,
    decDigits?, digitsToNat, signedInt?]

example : safe_float (some "") = none := by
  simp +decide [safe_float, pyStrip]

example : safe_float (some "1.2.3") = none := by
  simp +decide [safe_float, pyStrip, pyFloat?, splitE, splitDot, mantissa?,
    decDigits?, digitsToNat, signedInt?]

example : safe_float none = none := rfl

/-! ## Dict lemmas -/

theorem rowGet_cons_ne {k₁ k : String} (v : Option String) (r : Row)
    (h : k₁ ≠ k) :
    rowGet ((k, v) :: r) k₁ = rowGet r k₁ := by
  have hk : (k == k₁) = false := beq_eq_false_iff_ne.mpr (Ne.symm h)
  simp [rowGet, List.find?_append, hk]

theorem rowGet_cons_self {k : String} (v : Option String) (r : Row)
    (h : k ∉ r.map Prod.fst) :
    rowGet ((k, v) :: r) k = v := by
  have hfind : r.reverse.find? (fun p => p.1 == k) = none := by
    rw [List.find?_eq_none]
    intro p hp
    simp only [beq_iff_eq]
    intro hkp
    exact h (hkp ▸ List.mem_map_of_mem Prod.fst (List.mem_reverse.mp hp))
  simp [rowGet, List.find?_append, hfind]

theorem map_rowGet_zip (h : List String) :
    ∀ v : List (Option String), h.Nodup → v.length = h.length →
      h.map (fun k => rowGet (h.zip v) k) = v := by
  induction h with
  | nil =>
    intro v _ hlen
    simp only [List.length_nil, List.length_eq_zero] at hlen
    simp [hlen]
  | cons k h₂ ih =>
    intro v hnd hlen
    match v with
    | [] => simp at hlen
    | w :: v₂ =>
      have hk : k ∉ h₂ := (List.nodup_cons.mp hnd).1
      have hnd₂ : h₂.Nodup := (List.nodup_cons.mp hnd).2
      have hlen₂ : v₂.length = h₂.length := by simpa using hlen
      simp only [List.zip_cons_cons, List.map_cons]
      have h1 : rowGet ((k, w) :: h₂.zip v₂) k = w := by
        apply rowGet_cons_self
        rw [List.map_fst_zip h₂ v₂ (le_of_eq hlen₂.symm)]
        exact hk
      have h2 : h₂.map (fun k₁ => rowGet ((k, w) :: h₂.zip v₂) k₁) =
          h₂.map (fun k₁ => rowGet (h₂.zip v₂) k₁) :=
        List.map_congr_left fun a ha =>
          rowGet_cons_ne w _ (fun hak => hk (hak ▸ ha))
      rw [h1, h2, ih v₂ hnd₂ hlen₂]

theorem dictOfRecord_eq_zip (h rcd : List String)
    (hlen : rcd.length = h.length) :
    dictOfRecord h rcd = h.zip (rcd.map some) := by
  simp [dictOfRecord, hlen, List.drop_length]

theorem dedupKeysAux_subset : ∀ (seen l : List String),
    dedupKeysAux seen l ⊆ l := by
  intro seen l
  induction l generalizing seen with
  | nil => simp [dedupKeysAux]
  | cons k ks ih =>
    simp only [dedupKeysAux]
    split
    · exact (ih seen).trans (List.subset_cons_self k ks)
    · exact List.cons_subset_cons k (ih (k :: seen))

theorem dedupKeysAux_of_nodup :
    ∀ (seen l : List String), l.Nodup → (∀ x ∈ l, x ∉ seen) →
      dedupKeysAux seen l = l := by
  intro seen l
  induction l generalizing seen with
  | nil => intro _ _; rfl
  | cons k ks ih =>
    intro hnd hdisj
    have hk : k ∉ ks := (List.nodup_cons.mp hnd).1
    simp only [dedupKeysAux]
    rw [if_neg (hdisj k (List.mem_cons_self k ks))]
    congr 1
    apply ih (k :: seen) (List.nodup_cons.mp hnd).2
    intro x hx
    simp only [List.mem_cons, not_or]
    exact ⟨fun hxk => hk (hxk ▸ hx), hdisj x (List.mem_cons_of_mem k hx)⟩

theorem rowKeys_dictOfRecord (h rcd : List String) (hnd : h.Nodup)
    (hlen : rcd.length = h.length) :
    rowKeys (dictOfRecord h rcd) = h := by
  rw [dictOfRecord_eq_zip h rcd hlen, rowKeys,
    List.map_fst_zip h (rcd.map some) (by simp [hlen])]
  exact dedupKeysAux_of_nodup [] h hnd (by simp)

theorem dict_to_list_dictOfRecord (h rcd : List String) (hnd : h.Nodup)
    (hlen : rcd.length = h.length) :
    dict_to_list h (dictOfRecord h rcd) = .ok rcd := by
  rw [dict_to_list, if_pos]
  · congr 1
    have := map_rowGet_zip h (rcd.map some) hnd (by simp [hlen])
    rw [dictOfRecord_eq_zip h rcd hlen]
    calc h.map (fun k => (rowGet (h.zip (rcd.map some)) k).getD "")
        = (h.map (fun k => rowGet (h.zip (rcd.map some)) k)).map
            (fun o => o.getD "") := by rw [List.map_map]; rfl
      _ = (rcd.map some).map (fun o => o.getD "") := by rw [this]
      _ = rcd := by
        rw [List.map_map,
          show ((fun o => o.getD "") ∘ some : String → String) = id from rfl,
          List.map_id]
  · rw [rowKeys_dictOfRecord h rcd hnd hlen]
    simp [List.all_eq_true]

theorem dict_to_list_ok {f : List String} {r : Row} {rcd : List String}
    (h : dict_to_list f r = .ok rcd) :
    rcd = f.map (fun k => (rowGet r k).getD "") := by
  rw [dict_to_list] at h
  split at h
  · exact (Except.ok.injEq _ _ ▸ h).symm
  · exact absurd h (by simp)

/-! ## Loader lemmas -/

theorem read_all_rows_valid (d : Dataset) (hv : d.Valid) :
    read_all_rows d.toContent =
      .ok (d.records.map (dictOfRecord d.header)) := by
  obtain ⟨hne, _, hrne, hlen⟩ := hv
  rw [Dataset.toContent, read_all_rows]
  rw [if_neg hne]
  have hfilter : d.records.filter (fun r => r ≠ []) = d.records := by
    rw [List.filter_eq_self]
    intro r hr
    have h0 : r.length = d.header.length := hlen r hr
    simp only [ne_eq, decide_eq_true_eq]
    intro hnil
    exact hne (by
      have : d.header.length = 0 := by rw [← h0, hnil]; rfl
      exact List.length_eq_zero.mp this)
  rw [hfilter, if_neg (by simpa using hrne)]

/-! ## Replay-loop lemmas -/

theorem writtenRecords_sleepPad (c : Prop) [Decidable c] (d : ℚ)
    (l : List Event) :
    writtenRecords ((if c then [Event.sleep d] else []) ++ l) =
      writtenRecords l := by
  split <;> simp [writtenRecords]

theorem replayRows_ok (f : List String) (s : ℚ) :
    ∀ (rows : List Row) (prev : Option ℚ),
      (∀ r ∈ rows, ∃ rcd, dict_to_list f r = .ok rcd) →
      (replayRows f s prev rows).2.2 = true ∧
      (replayRows f s prev rows).2.1 = okDelays s prev rows ∧
      writtenRecords (replayRows f s prev rows).1 =
        rows.map (fun r => f.map (fun k => (rowGet r k).getD "")) := by
  intro rows
  induction rows with
  | nil => intro prev _; exact ⟨rfl, rfl, rfl⟩
  | cons row rest ih =>
    intro prev hok
    obtain ⟨rcd, hrcd⟩ := hok row (List.mem_cons_self row rest)
    obtain ⟨hok₂, hds₂, hwr₂⟩ :=
      ih (safe_float (rowGet row "time")) fun r hr =>
        hok r (List.mem_cons_of_mem row hr)
    simp only [replayRows, hrcd, okDelays]
    rcases hrepl : replayRows f s (safe_float (rowGet row "time")) rest
      with ⟨evs, ds, ok⟩
    rw [hrepl] at hok₂ hds₂ hwr₂
    refine ⟨hok₂, by rw [← hds₂], ?_⟩
    rw [writtenRecords_sleepPad]
    simp only [writtenRecords, List.filterMap_cons, List.map_cons]
    rw [← dict_to_list_ok hrcd]
    exact congrArg (rcd :: ·) hwr₂

/-! ## The master lemma: a run on a valid dataset -/

theorem main_valid (d : Dataset) (hv : d.Valid) (ht : "time" ∈ d.header)
    (args : Args) (fs : FS) (hs : 0 < args.speed)
    (hin : fs.files args.input = some d.toContent) :
    main args fs =
      ⟨0,
        [startMessage args, "Reached end of input. Exiting."],
        [],
        Event.writeHeader d.header ::
          (replayRows d.header args.speed none
            (d.records.map (dictOfRecord d.header))).1,
        okDelays args.speed none (d.records.map (dictOfRecord d.header)),
        fs.write args.output (d.header :: d.records)⟩ := by
  obtain ⟨hne, hnd, hrne, hlen⟩ := hv
  have hrows : ∀ r ∈ d.records.map (dictOfRecord d.header),
      ∃ rcd, dict_to_list d.header r = .ok rcd := by
    intro r hr
    obtain ⟨rcd, hrcd, rfl⟩ := List.mem_map.mp hr
    exact ⟨rcd, dict_to_list_dictOfRecord d.header rcd hnd (hlen rcd hrcd)⟩
  have hkeys : rowKeys (d.records.map (dictOfRecord d.header)).headI =
      d.header := by
    obtain ⟨r0, rs, hr0⟩ := List.exists_cons_of_ne_nil hrne
    rw [hr0]
    simp only [List.map_cons, List.headI]
    exact rowKeys_dictOfRecord d.header r0 hnd
      (hlen r0 (by rw [hr0]; exact List.mem_cons_self r0 rs))
  obtain ⟨hok, hds, hwr⟩ :=
    replayRows_ok d.header args.speed (d.records.map (dictOfRecord d.header))
      none hrows
  have hrec : (d.records.map (dictOfRecord d.header)).map
      (fun r => d.header.map (fun k => (rowGet r k).getD "")) = d.records := by
    rw [List.map_map]
    have : ∀ rcd ∈ d.records,
        d.header.map (fun k =>
          (rowGet (dictOfRecord d.header rcd) k).getD "") = rcd := by
      intro rcd hrcd
      exact (dict_to_list_ok
        (dict_to_list_dictOfRecord d.header rcd hnd (hlen rcd hrcd))).symm
    calc d.records.map
          ((fun r => d.header.map (fun k => (rowGet r k).getD "")) ∘
            dictOfRecord d.header)
        = d.records.map (fun rcd => rcd) := List.map_congr_left fun a ha => this a ha
      _ = d.records := List.map_id d.records
  rw [main, if_neg (not_le.mpr hs), hin]
  simp only [read_all_rows_valid d ⟨hne, hnd, hrne, hlen⟩, hkeys,
    if_neg (by simp [ht] : ¬ "time" ∉ d.header)]
  rcases hrepl : replayRows d.header args.speed none
      (d.records.map (dictOfRecord d.header)) with ⟨evs, ds, ok⟩
  rw [hrepl] at hok hds hwr
  subst hok
  have hds₂ : ds = okDelays args.speed none
      (d.records.map (dictOfRecord d.header)) := hds
  have hwr₂ : writtenRecords evs =
      (d.records.map (dictOfRecord d.header)).map
        (fun r => d.header.map (fun k => (rowGet r k).getD "")) := hwr
  have hfs : writtenRecords (Event.writeHeader d.header :: evs) =
      d.header :: d.records := by
    simp only [writtenRecords, List.filterMap_cons] at hwr₂ ⊢
    rw [hwr₂, hrec]
  simp [hds₂, hfs]

/-! ## Delay-sequence lemmas -/

theorem okDelays_length (s : ℚ) :
    ∀ (rows : List Row) (prev : Option ℚ),
      (okDelays s prev rows).length = rows.length := by
  intro rows
  induction rows with
  | nil => intro prev; rfl
  | cons r rest ih =>
    intro prev
    simp only [okDelays, List.length_cons, ih]

theorem okDelays_parse_none (s : ℚ) :
    ∀ (rows : List Row) (prev : Option ℚ) (i : ℕ) (row : Row),
      rows[i]? = some row →
      safe_float (rowGet row "time") = none →
      (okDelays s prev rows)[i]? = some 0 ∧
      (i + 1 < rows.length → (okDelays s prev rows)[i + 1]? = some 0) := by
  intro rows
  induction rows with
  | nil => intro prev i row h; simp at h
  | cons r rest ih =>
    intro prev i row hget hparse
    match i with
    | 0 =>
      simp only [List.getElem?_cons_zero, Option.some.injEq] at hget
      subst hget
      constructor
      · simp only [okDelays, List.getElem?_cons_zero, hparse,
          compute_sleep_s_none_right]
      · intro hlt
        simp only [List.length_cons] at hlt
        match rest with
        | [] => simp at hlt
        | r₂ :: rest₂ =>
          simp only [okDelays, hparse, List.getElem?_cons_succ,
            List.getElem?_cons_zero, compute_sleep_s_none_left]
    | j + 1 =>
      simp only [List.getElem?_cons_succ] at hget
      obtain ⟨h1, h2⟩ := ih (safe_float (rowGet r "time")) j row hget hparse
      refine ⟨by simpa [okDelays] using h1, fun hlt => ?_⟩
      have : j + 1 < rest.length := by simpa [List.length_cons] using hlt
      simpa [okDelays] using h2 this

/-! ## Claims -/

/-- **C1** — counterexample: at speed `10⁻¹⁰` (positive), the code divides
by the clamped value `max(1e-9, speed) = 1e-9` rather than by the speed:
the computed delay is `10⁹`, while the claim's formula `max(0, curr −
prev) / s` gives `10¹⁰`. -/
theorem claim_C1_counterexample :
    (0 : ℚ) < 1 / 10 ^ 10 ∧
    compute_sleep_s (some 0) (some 1) (1 / 10 ^ 10) = 10 ^ 9 ∧
    max 0 ((1 : ℚ) - 0) / (1 / 10 ^ 10) = 10 ^ 10 ∧
    ((10 : ℚ) ^ 9) ≠ 10 ^ 10 := by
  refine ⟨by norm_num, ?_, by norm_num, by norm_num⟩
  show max 0 ((1 : ℚ) - 0) / max (1 / 10 ^ 9) (1 / 10 ^ 10) = 10 ^ 9
  norm_num

/-- **C1** — amended: for every speed `s ≥ 1e-9`, the per-row delay equals
`max(0, curr − prev) / s` when both pacing values are present, and is
exactly `0` when either pacing value is absent.  (For `0 < s < 1e-9` the
code divides by the clamp `1e-9` instead of `s`.) -/
theorem claim_C1_delay_formula (p c s : ℚ) (hs : 1 / 10 ^ 9 ≤ s) :
    compute_sleep_s (some p) (some c) s = max 0 (c - p) / s ∧
    ∀ q : Option ℚ, compute_sleep_s none q s = 0 ∧
      compute_sleep_s q none s = 0 := by
  refine ⟨?_, fun q =>
    ⟨compute_sleep_s_none_left q s, compute_sleep_s_none_right q s⟩⟩
  show max 0 (c - p) / max (1 / 10 ^ 9) s = max 0 (c - p) / s
  rw [max_eq_right hs]

/-- Witness for C1 at `prev = 0`, `curr = 2`, `speed = 1`. -/
theorem claim_C1_witness :
    (1 / 10 ^ 9 : ℚ) ≤ 1 ∧
    compute_sleep_s (some 0) (some 2) 1 = max 0 (2 - 0) / 1 :=
  ⟨by norm_num, (claim_C1_delay_formula 0 2 1 (by norm_num)).1⟩

/-- **C7**: for numeric pacing values `t1`, `t2` and positive speed the
computed delay is nonnegative, and for `t2 < t1` (out-of-order timestamps)
it is exactly `0`: a negative sleep is never requested. -/
theorem claim_C7_nonneg_delay (t1 t2 s : ℚ) (hs : 0 < s) :
    0 ≤ compute_sleep_s (some t1) (some t2) s ∧
    (t2 < t1 → compute_sleep_s (some t1) (some t2) s = 0) := by
  have hden : (0 : ℚ) < max (1 / 10 ^ 9) s := lt_max_of_lt_right hs
  constructor
  · show 0 ≤ max 0 (t2 - t1) / max (1 / 10 ^ 9) s
    exact div_nonneg (le_max_left 0 _) hden.le
  · intro hlt
    show max 0 (t2 - t1) / max (1 / 10 ^ 9) s = 0
    rw [max_eq_left (by linarith), zero_div]

/-- Witness for C7 at `t1 = 5`, `t2 = 3`, `speed = 1`. -/
theorem claim_C7_witness :
    (0 : ℚ) < 1 ∧ (3 : ℚ) < 5 ∧
    0 ≤ compute_sleep_s (some 5) (some 3) 1 ∧
    compute_sleep_s (some 5) (some 3) 1 = 0 :=
  ⟨by norm_num, by norm_num, (claim_C7_nonneg_delay 5 3 1 (by norm_num)).1,
    (claim_C7_nonneg_delay 5 3 1 (by norm_num)).2 (by norm_num)⟩

/-- **C8**: for any fixed pair of present pacing values, the delay at speed
`2` equals the delay at speed `1` divided by `2` (exactly, in the rational
model). -/
theorem claim_C8_speed_scaling (t1 t2 : ℚ) :
    compute_sleep_s (some t1) (some t2) 2 =
      compute_sleep_s (some t1) (some t2) 1 / 2 := by
  show max 0 (t2 - t1) / max (1 / 10 ^ 9) 2 =
    max 0 (t2 - t1) / max (1 / 10 ^ 9) 1 / 2
  rw [max_eq_right (by norm_num : (1 / 10 ^ 9 : ℚ) ≤ 2),
    max_eq_right (by norm_num : (1 / 10 ^ 9 : ℚ) ≤ 1)]
  ring

/-- **C5**: with `speed ≤ 0` the program exits with code 2 (non-zero), the
diagnostic goes to stderr, nothing is printed to stdout, no event happens,
no row is processed, and the filesystem — in particular the output file —
is untouched. -/
theorem claim_C5_speed_rejected (args : Args) (fs : FS)
    (hs : args.speed ≤ 0) :
    (main args fs).exitCode = 2 ∧ (main args fs).exitCode ≠ 0 ∧
    (main args fs).stderr = ["ERROR: --speed must be > 0."] ∧
    (main args fs).stdout = [] ∧
    (main args fs).events = [] ∧ (main args fs).delays = [] ∧
    (main args fs).fs = fs := by
  simp [main, if_pos hs]

/-- Witness for C5 at `speed = −1`. -/
theorem claim_C5_witness :
    (-1 : ℚ) ≤ 0 ∧
    (main ⟨"data/historical.csv", "data/live.csv", -1⟩ ⟨fun _ => none⟩).exitCode
      = 2 ∧
    (main ⟨"data/historical.csv", "data/live.csv", -1⟩ ⟨fun _ => none⟩).fs =
      ⟨fun _ => none⟩ := by
  have h := claim_C5_speed_rejected
    ⟨"data/historical.csv", "data/live.csv", -1⟩ ⟨fun _ => none⟩ (by norm_num)
  exact ⟨by norm_num, h.1, h.2.2.2.2.2.2⟩

/-- **C2**: a replay of a valid N-row dataset runs to completion (exit 0)
and leaves as output exactly the header followed by the N input records —
same contents, same order, one output record per input row. -/
theorem claim_C2_row_preservation (d : Dataset) (hv : d.Valid)
    (ht : "time" ∈ d.header) (args : Args) (fs : FS)
    (hs : 0 < args.speed) (hin : fs.files args.input = some d.toContent) :
    (main args fs).exitCode = 0 ∧
    (main args fs).fs.files args.output = some (d.header :: d.records) := by
  rw [main_valid d hv ht args fs hs hin]
  exact ⟨rfl, by simp [FS.write]⟩

/-- Witness for C2: the spec §8 scenario (3 rows, header `time,ch1`). -/
theorem claim_C2_witness :
    (Dataset.mk ["time", "ch1"] [["0", "1"], ["1", "2"], ["3", "3"]]).Valid ∧
    (0 : ℚ) < 1 ∧
    (main ⟨"data/historical.csv", "data/live.csv", 1⟩
        ⟨fun p => if p = "data/historical.csv"
          then some [["time", "ch1"], ["0", "1"], ["1", "2"], ["3", "3"]]
          else none⟩).exitCode = 0 ∧
    (main ⟨"data/historical.csv", "data/live.csv", 1⟩
        ⟨fun p => if p = "data/historical.csv"
          then some [["time", "ch1"], ["0", "1"], ["1", "2"], ["3", "3"]]
          else none⟩).fs.files "data/live.csv" =
      some [["time", "ch1"], ["0", "1"], ["1", "2"], ["3", "3"]] := by
  have h := claim_C2_row_preservation
    ⟨["time", "ch1"], [["0", "1"], ["1", "2"], ["3", "3"]]⟩
    (by refine ⟨by decide, by decide, by decide, ?_⟩; decide)
    (by decide)
    ⟨"data/historical.csv", "data/live.csv", 1⟩
    ⟨fun p => if p = "data/historical.csv"
      then some [["time", "ch1"], ["0", "1"], ["1", "2"], ["3", "3"]]
      else none⟩
    (by norm_num) (by decide)
  exact ⟨by decide, by norm_num, h.1, h.2⟩

/-- **C3**: on a valid dataset, the run's very first event is writing the
input header (same names, same order) to the freshly-truncated output —
before any sleep and before any data row — and the output file's first
line is that header. -/
theorem claim_C3_header_first (d : Dataset) (hv : d.Valid)
    (ht : "time" ∈ d.header) (args : Args) (fs : FS)
    (hs : 0 < args.speed) (hin : fs.files args.input = some d.toContent) :
    (main args fs).events.head? = some (Event.writeHeader d.header) ∧
    ((main args fs).fs.files args.output).map List.head? =
      some (some d.header) := by
  rw [main_valid d hv ht args fs hs hin]
  exact ⟨rfl, by simp [FS.write]⟩

/-- Witness for C3 on the spec §8 scenario. -/
theorem claim_C3_witness :
    (Dataset.mk ["time", "ch1"] [["0", "1"], ["1", "2"], ["3", "3"]]).Valid ∧
    (0 : ℚ) < 1 ∧
    (main ⟨"data/historical.csv", "data/live.csv", 1⟩
        ⟨fun p => if p = "data/historical.csv"
          then some [["time", "ch1"], ["0", "1"], ["1", "2"], ["3", "3"]]
          else none⟩).events.head? =
      some (Event.writeHeader ["time", "ch1"]) := by
  have h := claim_C3_header_first
    ⟨["time", "ch1"], [["0", "1"], ["1", "2"], ["3", "3"]]⟩
    (by decide) (by decide)
    ⟨"data/historical.csv", "data/live.csv", 1⟩
    ⟨fun p => if p = "data/historical.csv"
      then some [["time", "ch1"], ["0", "1"], ["1", "2"], ["3", "3"]]
      else none⟩
    (by norm_num) (by decide)
  exact ⟨by decide, by norm_num, h.1⟩

/-- **C9**: the output of a completed replay is exactly the header plus
this run's rows, whatever the output file (or the whole filesystem beyond
the input file) contained before; re-running on the filesystem left by a
first run again yields only that run's rows — never a concatenation. -/
theorem claim_C9_truncation (d : Dataset) (hv : d.Valid)
    (ht : "time" ∈ d.header) (args : Args) (fs₁ fs₂ : FS)
    (hs : 0 < args.speed)
    (h1 : fs₁.files args.input = some d.toContent)
    (h2 : fs₂.files args.input = some d.toContent) :
    (main args fs₁).fs.files args.output = some (d.header :: d.records) ∧
    (main args fs₁).fs.files args.output =
      (main args fs₂).fs.files args.output ∧
    (main args (main args fs₁).fs).fs.files args.output =
      some (d.header :: d.records) := by
  have e1 := main_valid d hv ht args fs₁ hs h1
  have hout1 : (main args fs₁).fs.files args.output =
      some (d.header :: d.records) := by
    rw [e1]; simp [FS.write]
  have hrerun : (main args fs₁).fs.files args.input = some d.toContent := by
    rw [e1]
    simp only [FS.write]
    by_cases he : args.input = args.output
    · simp only [if_pos he]; rfl
    · simp only [if_neg he, h1]
  have e3 := main_valid d hv ht args (main args fs₁).fs hs hrerun
  refine ⟨hout1, ?_, by rw [e3]; simp [FS.write]⟩
  rw [hout1, main_valid d hv ht args fs₂ hs h2]
  simp [FS.write]

/-- Witness for C9: a prior output file with different content is wholly
replaced. -/
theorem claim_C9_witness :
    (Dataset.mk ["time", "ch1"] [["0", "1"], ["1", "2"], ["3", "3"]]).Valid ∧
    (0 : ℚ) < 1 ∧
    (main ⟨"data/historical.csv", "data/live.csv", 1⟩
        ⟨fun p => if p = "data/historical.csv"
          then some [["time", "ch1"], ["0", "1"], ["1", "2"], ["3", "3"]]
          else if p = "data/live.csv" then some [["stale"]]
          else none⟩).fs.files "data/live.csv" =
      some [["time", "ch1"], ["0", "1"], ["1", "2"], ["3", "3"]] := by
  have h := claim_C9_truncation
    ⟨["time", "ch1"], [["0", "1"], ["1", "2"], ["3", "3"]]⟩
    (by decide) (by decide)
    ⟨"data/historical.csv", "data/live.csv", 1⟩
    ⟨fun p => if p = "data/historical.csv"
      then some [["time", "ch1"], ["0", "1"], ["1", "2"], ["3", "3"]]
      else if p = "data/live.csv" then some [["stale"]] else none⟩
    ⟨fun p => if p = "data/historical.csv"
      then some [["time", "ch1"], ["0", "1"], ["1", "2"], ["3", "3"]]
      else if p = "data/live.csv" then some [["stale"]] else none⟩
    (by norm_num) (by decide) (by decide)
  exact ⟨by decide, by norm_num, h.1⟩

/-- **C10**: the speed factor influences only timing, never data: two
completed replays of the same valid dataset at any two positive speeds
exit 0 and write identical output content (header and rows alike). -/
theorem claim_C10_speed_noninterference (d : Dataset) (hv : d.Valid)
    (ht : "time" ∈ d.header) (inp out : String) (s₁ s₂ : ℚ)
    (hs₁ : 0 < s₁) (hs₂ : 0 < s₂) (fs : FS)
    (hin : fs.files inp = some d.toContent) :
    (main ⟨inp, out, s₁⟩ fs).exitCode = 0 ∧
    (main ⟨inp, out, s₂⟩ fs).exitCode = 0 ∧
    (main ⟨inp, out, s₁⟩ fs).fs.files out =
      (main ⟨inp, out, s₂⟩ fs).fs.files out ∧
    (main ⟨inp, out, s₁⟩ fs).fs.files out =
      some (d.header :: d.records) := by
  rw [main_valid d hv ht ⟨inp, out, s₁⟩ fs hs₁ hin,
    main_valid d hv ht ⟨inp, out, s₂⟩ fs hs₂ hin]
  exact ⟨rfl, rfl, rfl, by simp [FS.write]⟩

/-- Witness for C10 at speeds `1` and `5`. -/
theorem claim_C10_witness :
    (0 : ℚ) < 1 ∧ (0 : ℚ) < 5 ∧
    (main ⟨"data/historical.csv", "data/live.csv", 1⟩
        ⟨fun p => if p = "data/historical.csv"
          then some [["time", "ch1"], ["0", "1"], ["1", "2"], ["3", "3"]]
          else none⟩).fs.files "data/live.csv" =
      (main ⟨"data/historical.csv", "data/live.csv", 5⟩
        ⟨fun p => if p = "data/historical.csv"
          then some [["time", "ch1"], ["0", "1"], ["1", "2"], ["3", "3"]]
          else none⟩).fs.files "data/live.csv" := by
  have h := claim_C10_speed_noninterference
    ⟨["time", "ch1"], [["0", "1"], ["1", "2"], ["3", "3"]]⟩
    (by decide) (by decide) "data/historical.csv" "data/live.csv" 1 5
    (by norm_num) (by norm_num)
    ⟨fun p => if p = "data/historical.csv"
      then some [["time", "ch1"], ["0", "1"], ["1", "2"], ["3", "3"]]
      else none⟩
    (by decide)
  exact ⟨by norm_num, by norm_num, h.2.2.1⟩

/-- **C4**: a row whose `time` cell is missing, empty, or fails numeric
parsing never aborts the run: on a valid dataset the replay still exits 0
with every row written, that row's computed delay is exactly `0`, and the
next row's delay (when a next row exists) is also exactly `0`, because the
stored previous pacing value is absent. -/
theorem claim_C4_absent_pacing (d : Dataset) (hv : d.Valid)
    (ht : "time" ∈ d.header) (args : Args) (fs : FS)
    (hs : 0 < args.speed) (hin : fs.files args.input = some d.toContent)
    (i : ℕ) (rcd : List String) (hi : d.records[i]? = some rcd)
    (hparse : safe_float (rowGet (dictOfRecord d.header rcd) "time") = none) :
    (main args fs).exitCode = 0 ∧
    (main args fs).fs.files args.output = some (d.header :: d.records) ∧
    (main args fs).delays[i]? = some 0 ∧
    (i + 1 < d.records.length → (main args fs).delays[i + 1]? = some 0) := by
  rw [main_valid d hv ht args fs hs hin]
  have hrow : (d.records.map (dictOfRecord d.header))[i]? =
      some (dictOfRecord d.header rcd) := by
    rw [List.getElem?_map, hi]; rfl
  obtain ⟨h1, h2⟩ := okDelays_parse_none args.speed
    (d.records.map (dictOfRecord d.header)) none i
    (dictOfRecord d.header rcd) hrow hparse
  exact ⟨rfl, by simp [FS.write], h1, fun hlt => h2 (by simpa using hlt)⟩

/-- Witness for C4: second row's `time` is the non-numeric `"abc"`; the run
exits 0 and rows 1 and 2 (0-based) both get delay 0. -/
theorem claim_C4_witness :
    (Dataset.mk ["time", "ch1"] [["0", "1"], ["abc", "2"], ["5", "3"]]).Valid ∧
    safe_float (rowGet (dictOfRecord ["time", "ch1"] ["abc", "2"]) "time") =
      none ∧
    (main ⟨"data/historical.csv", "data/live.csv", 1⟩
        ⟨fun p => if p = "data/historical.csv"
          then some [["time", "ch1"], ["0", "1"], ["abc", "2"], ["5", "3"]]
          else none⟩).exitCode = 0 ∧
    (main ⟨"data/historical.csv", "data/live.csv", 1⟩
        ⟨fun p => if p = "data/historical.csv"
          then some [["time", "ch1"], ["0", "1"], ["abc", "2"], ["5", "3"]]
          else none⟩).delays[1]? = some 0 ∧
    (main ⟨"data/historical.csv", "data/live.csv", 1⟩
        ⟨fun p => if p = "data/historical.csv"
          then some [["time", "ch1"], ["0", "1"], ["abc", "2"], ["5", "3"]]
          else none⟩).delays[2]? = some 0 := by
  have h := claim_C4_absent_pacing
    ⟨["time", "ch1"], [["0", "1"], ["abc", "2"], ["5", "3"]]⟩
    (by decide) (by decide)
    ⟨"data/historical.csv", "data/live.csv", 1⟩
    ⟨fun p => if p = "data/historical.csv"
      then some [["time", "ch1"], ["0", "1"], ["abc", "2"], ["5", "3"]]
      else none⟩
    (by norm_num) (by decide) 1 ["abc", "2"] (by decide) (by decide)
  exact ⟨by decide, by decide, h.1, h.2.2.1, h.2.2.2 (by decide)⟩

/-- **C6**: with a positive speed, each of the four load-time failure
conditions — input file missing; no header row; header but zero data rows;
header without a `time` column — makes the program exit 2 (non-zero) with a
condition-specific diagnostic on stderr, with no event, no processed row,
and the filesystem (in particular the output file) untouched. -/
theorem claim_C6_load_failures (args : Args) (fs : FS)
    (hs : 0 < args.speed) :
    (fs.files args.input = none →
      main args fs = ⟨2, [],
        ["ERROR: input file not found: " ++ args.input], [], [], fs⟩) ∧
    (∀ content, fs.files args.input = some content →
      content.head? = none ∨ content.head? = some [] →
      main args fs = ⟨2, [],
        ["ERROR: failed reading input CSV: Input CSV has no header."],
        [], [], fs⟩) ∧
    (∀ fns rest, fs.files args.input = some (fns :: rest) → fns ≠ [] →
      rest.filter (fun r => r ≠ []) = [] →
      main args fs = ⟨2, [],
        ["ERROR: failed reading input CSV: Input CSV has no data rows."],
        [], [], fs⟩) ∧
    (∀ content rows, fs.files args.input = some content →
      read_all_rows content = .ok rows → "time" ∉ rowKeys rows.headI →
      main args fs = ⟨2, [],
        ["ERROR: expected a 'time' column in the input CSV."],
        [], [], fs⟩) := by
  have hnle := not_le.mpr hs
  refine ⟨?_, ?_, ?_, ?_⟩
  · intro hnone
    simp [main, hnle, hnone]
  · intro content hsome hhd
    have hread : read_all_rows content =
        .error "Input CSV has no header." := by
      match content, hhd with
      | [], _ => rfl
      | [] :: rest, _ => rw [read_all_rows, if_pos rfl]
      | (c :: cs) :: rest, h => simp at h
    simp [main, hnle, hsome, hread]
  · intro fns rest hsome hfns hfilter
    have hread : read_all_rows (fns :: rest) =
        .error "Input CSV has no data rows." := by
      rw [read_all_rows, if_neg hfns]
      simp [hfilter]
      intro x hx
      by_contra hne
      have hmem : x ∈ List.filter (fun r => decide (r ≠ [])) rest :=
        List.mem_filter.mpr ⟨hx, by simpa using hne⟩
      rw [hfilter] at hmem
      simp at hmem
    simp [main, hnle, hsome, hread]
  · intro content rows hsome hread hnotin
    simp [main, hnle, hsome, hread, hnotin]

/-- Witness for C6: a missing input file exits 2 with the diagnostic on
stderr and an unchanged filesystem. -/
theorem claim_C6_witness :
    (0 : ℚ) < 1 ∧
    (FS.mk fun _ => none).files "data/historical.csv" = none ∧
    main ⟨"data/historical.csv", "data/live.csv", 1⟩ ⟨fun _ => none⟩ =
      ⟨2, [], ["ERROR: input file not found: data/historical.csv"], [], [],
        ⟨fun _ => none⟩⟩ := by
  have h := (claim_C6_load_failures
    ⟨"data/historical.csv", "data/live.csv", 1⟩ ⟨fun _ => none⟩
    (by norm_num)).1 rfl
  refine ⟨by norm_num, rfl, by rw [h]; rfl⟩

end FeedGenerator
